import Mathlib

/-!
# Veeam CORS proxy (`Veeam/proxy-server.js`)

A shallow embedding of the request listener passed to `http.createServer` and of the two
callbacks it registers on the outbound `https.request` (the response callback and the
`'error'` listener), followed by the properties of the relay that the specification states.

The listener mutates three kinds of JavaScript objects: the `ServerResponse` it is given,
the header object of the inbound message, and the fresh header object it builds for the
outbound request.  Header objects live in a small heap addressed by references so that
copying (`{ ...req.headers }`) and aliasing are distinguishable.
-/

set_option autoImplicit false

namespace VeeamProxy

/-! ## Strings -/

/-- JavaScript `String.prototype.toLowerCase`, on the ASCII letters.  Header names are HTTP
tokens (ASCII), and no character outside ASCII lower-cases to a letter of `access-control-`,
`host` or `origin`, so the comparisons made by the handler are unaffected. -/
def toLowerCase (s : String) : String :=
  ⟨s.data.map Char.toLower⟩

/-- Character-level test behind `startsWith`. -/
def startsWithChars : List Char → List Char → Bool
  | _, [] => true
  | [], _ :: _ => false
  | c :: cs, p :: ps => c == p && startsWithChars cs ps

/-- JavaScript `String.prototype.startsWith`. -/
def startsWith (s p : String) : Bool :=
  startsWithChars s.data p.data

/-- Rendering of a `string | null` value inside a template literal. -/
def templateStr : Option String → String
  | some s => s
  | none => "null"

/-! ## Header objects and the heap -/

/-- Value of one property of a Node header object: a string, or an array of strings
(Node uses an array for repeated headers such as `set-cookie`). -/
inductive HeaderValue where
  | single (v : String)
  | multi (vs : List String)
  deriving DecidableEq, Repr

/-- A plain JavaScript object used as a header mapping: its own properties in enumeration
order. -/
abbrev HeaderObj := List (String × HeaderValue)

/-- The JavaScript statement `delete obj[k]`. -/
def deleteKey (k : String) (o : HeaderObj) : HeaderObj :=
  o.filter (fun e => decide (e.1 ≠ k))

/-- Property lookup `obj[k]`. -/
def getKey (k : String) (o : HeaderObj) : Option HeaderValue :=
  (o.find? (fun e => decide (e.1 = k))).map Prod.snd

/-- Object heap: header objects addressed by their index. -/
structure Heap where
  objs : List HeaderObj
  deriving DecidableEq, Repr

/-- Dereference. -/
def Heap.read (h : Heap) (r : Nat) : HeaderObj :=
  h.objs.getD r []

/-- Allocation of a new object; returns the new heap and the fresh reference. -/
def Heap.alloc (h : Heap) (o : HeaderObj) : Heap × Nat :=
  (⟨h.objs ++ [o]⟩, h.objs.length)

/-- In-place mutation of the object behind a reference. -/
def Heap.mutate (h : Heap) (r : Nat) (f : HeaderObj → HeaderObj) : Heap :=
  ⟨h.objs.set r (f (h.read r))⟩

/-! ## Messages -/

/-- The inbound `http.IncomingMessage` as far as the handler reads it.  `headers` is a
reference to the header object (Node lower-cases its keys). -/
structure IncomingMessage where
  method : String
  url : String
  headers : Nat
  deriving DecidableEq, Repr

/-- The `options` object literal built at lines 36-43. -/
structure RequestOptions where
  hostname : String
  port : Nat
  path : Option String
  method : String
  headers : Nat
  rejectUnauthorized : Bool
  deriving DecidableEq, Repr

/-- An outbound request as created by `https.request(options, cb)`: the options, with the
header object read at the moment of the call. -/
structure ClientRequest where
  hostname : String
  port : Nat
  path : Option String
  method : String
  headers : HeaderObj
  rejectUnauthorized : Bool
  deriving DecidableEq, Repr

/-- The call `https.request(options, cb)`. -/
def httpsRequest (heap : Heap) (o : RequestOptions) : ClientRequest :=
  { hostname := o.hostname, port := o.port, path := o.path, method := o.method,
    headers := heap.read o.headers, rejectUnauthorized := o.rejectUnauthorized }

/-! ## `http.ServerResponse` -/

/-- The response object handed to the listener.  `headers` are the headers set so far
(name as given, value), one entry per lower-cased name; `hasBody` is Node's `_hasBody`;
`sentStatus`, `sentHeaders` and `body` are what has been committed to the caller.  Headers
that Node adds by itself (`Date`, `Connection`, `Content-Length`, `Transfer-Encoding`) are
not represented. -/
structure ServerResponse where
  statusCode : Nat
  headers : HeaderObj
  hasBody : Bool
  headersSent : Bool
  sentStatus : Option Nat
  sentHeaders : HeaderObj
  body : String
  finished : Bool
  deriving DecidableEq, Repr

/-- A response object as Node creates it for a new request: status 200, nothing set or
sent, and no body allowed when the request method is `HEAD`. -/
def ServerResponse.fresh (method : String) : ServerResponse :=
  { statusCode := 200, headers := [], hasBody := decide (method ≠ "HEAD"),
    headersSent := false, sentStatus := none, sentHeaders := [], body := "",
    finished := false }

/-- Replace the entry stored under the lower-cased name, or append a new one. -/
def setEntry (name : String) (v : HeaderValue) : HeaderObj → HeaderObj
  | [] => [(name, v)]
  | e :: es =>
    if toLowerCase e.1 = toLowerCase name then (name, v) :: es
    else e :: setEntry name v es

/-- Method `res.setHeader(name, value)`; throws once the header block has been sent. -/
def ServerResponse.setHeader (res : ServerResponse) (name : String) (v : HeaderValue) :
    Except String ServerResponse :=
  if res.headersSent then .error "ERR_HTTP_HEADERS_SENT"
  else .ok { res with headers := setEntry name v res.headers }

/-- Status codes for which `writeHead` clears `_hasBody`: 204, 304 and 100-199. -/
def statusHasNoBody (code : Nat) : Bool :=
  code == 204 || code == 304 || (100 ≤ code && code ≤ 199)

/-- Method `res.writeHead(code)`.  It throws once the header block has been sent, and,
after `code |= 0`, when the code is below 100 or above 999 (a value from 2^31 on becomes
negative there; as a natural number it is above 999).  Otherwise it commits status line
and header block, and clears `hasBody` for a status without body. -/
def ServerResponse.writeHead (res : ServerResponse) (code : Nat) :
    Except String ServerResponse :=
  if res.headersSent then .error "ERR_HTTP_HEADERS_SENT"
  else
    let code := code % 4294967296
    if code < 100 ∨ 999 < code then .error "ERR_HTTP_INVALID_STATUS_CODE"
    else .ok { res with statusCode := code, headersSent := true, sentStatus := some code,
                        sentHeaders := res.headers,
                        hasBody := res.hasBody && !(statusHasNoBody code) }

/-- Node's `_implicitHeader`, run by the first `write` or `end` when the header block is
unsent: `writeHead(this.statusCode)`. -/
def ServerResponse.implicitHeader (res : ServerResponse) : Except String ServerResponse :=
  if res.headersSent then .ok res
  else res.writeHead res.statusCode

/-- Method `res.write(chunk)`: after `end` nothing more reaches the caller; otherwise the
header block is sent if need be, and the chunk is appended unless the response must not
have a body. -/
def ServerResponse.write (res : ServerResponse) (chunk : String) :
    Except String ServerResponse :=
  if res.finished then .ok res
  else
    match res.implicitHeader with
    | .error e => .error e
    | .ok r => .ok (if r.hasBody then { r with body := r.body ++ chunk } else r)

/-- Method `res.end(data)`, with `none` for the call without argument; a second `end` has
no effect on what the caller receives. -/
def ServerResponse.res_end (res : ServerResponse) (data : Option String) :
    Except String ServerResponse :=
  if res.finished then .ok res
  else
    match res.implicitHeader with
    | .error e => .error e
    | .ok r =>
      .ok { (if r.hasBody then { r with body := r.body ++ data.getD "" } else r) with
            finished := true }

/-! ## The platform's `url.parse` -/

/-- What the handler observes of `url.parse(u)`: an exception, or the value of the `path`
property of the result (a string or `null`).  The function belongs to the Node runtime, so
the listener is parametrised by it. -/
abbrev UrlParse := String → Except String (Option String)

/-- Whitespace as tested by the trimming loop of `url.parse`: code below 33, no-break
space, zero-width no-break space. -/
def isWs (c : Char) : Bool :=
  c.toNat < 33 || c.toNat == 0xA0 || c.toNat == 0xFEFF

/-- The regular-expression class `\s`. -/
def isRegexSpace (c : Char) : Bool :=
  let n := c.toNat
  n == 9 || n == 10 || n == 11 || n == 12 || n == 13 || n == 32 || n == 0xA0 ||
  n == 0x1680 || (0x2000 ≤ n && n ≤ 0x200A) || n == 0x2028 || n == 0x2029 ||
  n == 0x202F || n == 0x205F || n == 0x3000 || n == 0xFEFF

/-- Removal of leading and trailing whitespace (`start` and `end` of the first loop). -/
def trimWs (cs : List Char) : List Char :=
  ((cs.dropWhile isWs).reverse.dropWhile isWs).reverse

/-- Conversion of backslashes to forward slashes up to the first `?` or `#`. -/
def convertBackslashes : List Char → List Char
  | [] => []
  | c :: cs =>
    if c = '?' ∨ c = '#' then c :: cs
    else if c = Char.ofNat 92 then '/' :: convertBackslashes cs
    else c :: convertBackslashes cs

/-- Flag `hasHash`: a `#` occurs. -/
def hasHash (cs : List Char) : Bool :=
  cs.any (fun c => c == '#')

/-- Flag `hasAt`: an `@` occurs before the first `?` or `#`. -/
def hasAt (cs : List Char) : Bool :=
  (cs.takeWhile (fun c => !(c == '?' || c == '#'))).any (fun c => c == '@')

/-- Match of `simplePathPattern`, `/^(\/\/?(?!\/)[^?\s]*)(\?[^\s]*)?$/`: a leading slash,
not three leading slashes, and no `\s` character anywhere. -/
def simplePathPattern (rest : List Char) : Bool :=
  match rest with
  | '/' :: '/' :: '/' :: _ => false
  | '/' :: more => more.all (fun c => !isRegexSpace c)
  | _ => false

/-- Character class of `protocolPattern`. -/
def isProtocolChar (c : Char) : Bool :=
  c.isAlphanum || c == '.' || c == '+' || c == '-'

/-- Match of `protocolPattern`, `/^[a-z0-9.+-]+:/i`. -/
def protocolPattern (rest : List Char) : Bool :=
  match rest.takeWhile isProtocolChar, rest.dropWhile isProtocolChar with
  | _ :: _, ':' :: _ => true
  | _, _ => false

/-- Match of `hostPattern`, `/^\/\/[^@/]+@[^@/]+/`. -/
def hostPattern (rest : List Char) : Bool :=
  match rest with
  | '/' :: '/' :: more =>
    match more.takeWhile (fun c => !(c == '@' || c == '/')),
          more.dropWhile (fun c => !(c == '@' || c == '/')) with
    | _ :: _, '@' :: c :: _ => !(c == '@' || c == '/')
    | _, _ => false
  | _ => false

/-- Percent-escape of one character by `autoEscapeStr`. -/
def autoEscapeChar (c : Char) : List Char :=
  match c.toNat with
  | 9 => "%09".data
  | 10 => "%0A".data
  | 13 => "%0D".data
  | 32 => "%20".data
  | 34 => "%22".data
  | 39 => "%27".data
  | 60 => "%3C".data
  | 62 => "%3E".data
  | 92 => "%5C".data
  | 94 => "%5E".data
  | 96 => "%60".data
  | 123 => "%7B".data
  | 124 => "%7C".data
  | 125 => "%7D".data
  | _ => [c]

/-- The function `autoEscapeStr`. -/
def autoEscapeStr (rest : List Char) : List Char :=
  rest.flatMap autoEscapeChar

/-- Model of the `path` property of Node's legacy `url.parse(u)` (one argument, so
`slashesDenoteHost` is false) for inputs without scheme and without `//user@host`
authority: trimming and backslash conversion, the `simplePathPattern` fast path, and
otherwise escaping followed by the split at `#` and `?`, with `path = pathname + search`
or `null` when both are empty.  The outer `none` marks the inputs that enter the
scheme/host branch, which is not modelled. -/
def urlParsePath (u : String) : Option (Option String) :=
  let trimmed := trimWs u.data
  let rest := convertBackslashes trimmed
  if !hasHash trimmed && !hasAt trimmed && simplePathPattern rest then
    some (some ⟨rest⟩)
  else if protocolPattern rest || hostPattern rest then
    none
  else
    let escaped := autoEscapeStr rest
    let beforeHash := escaped.takeWhile (fun c => !(c == '#'))
    let pathname := beforeHash.takeWhile (fun c => !(c == '?'))
    let search := beforeHash.dropWhile (fun c => !(c == '?'))
    if pathname ≠ [] ∨ search ≠ [] then some (some ⟨pathname ++ search⟩)
    else some none

/-- A platform parser is compatible with Node on the modelled inputs. -/
def AgreesWithNode (parse : UrlParse) : Prop :=
  ∀ u p, urlParsePath u = some p → parse u = .ok p

/-- A platform parser that follows `urlParsePath` where it is defined and reports the
remaining inputs as failed. -/
def modelParse : UrlParse := fun u =>
  match urlParsePath u with
  | some p => .ok p
  | none => .error "outside the model"

/-- A character that the first loop of `url.parse` neither trims, converts nor flags, and
that `simplePathPattern` accepts. -/
def isPlainChar (c : Char) : Bool :=
  !(isWs c) && !(isRegexSpace c) && !(c == Char.ofNat 92) && !(c == '#') && !(c == '@')

/-- An origin-form request-target that `url.parse` returns through its fast path: it
matches `simplePathPattern` and has no whitespace, backslash, `#` or `@`. -/
def isPlainTarget (u : String) : Bool :=
  simplePathPattern u.data && u.data.all isPlainChar

/-! ## The request listener -/

/-- Constant `VEEAM_SERVER`. -/
def VEEAM_SERVER : String := "192.168.111.7"

/-- Constant `VEEAM_PORT`. -/
def VEEAM_PORT : Nat := 9419

/-- State of the handling of one inbound request: the heap, the inbound message, the
response object, the outbound requests created so far, whether `proxyRes.pipe(res)` is in
place, the console lines, and an exception that escaped a callback (which ends the
process). -/
structure Conn where
  heap : Heap
  req : IncomingMessage
  res : ServerResponse
  outbound : List ClientRequest
  piping : Bool
  log : List String
  uncaught : Option String
  deriving DecidableEq, Repr

/-- State in which Node invokes the listener for a new request. -/
def Conn.accept (heap : Heap) (req : IncomingMessage) : Conn :=
  { heap := heap, req := req, res := ServerResponse.fresh req.method, outbound := [],
    piping := false, log := [], uncaught := none }

/-- The four `res.setHeader` calls of lines 13-16.  `setHeader` fails only when the header
block has been sent, which these calls do not change, so a failure is that of the first
call and leaves the response as it was. -/
def setCorsHeaders (res : ServerResponse) : Except String ServerResponse := do
  let res ← res.setHeader "Access-Control-Allow-Origin" (.single "*")
  let res ← res.setHeader "Access-Control-Allow-Methods"
    (.single "GET, POST, PUT, DELETE, OPTIONS")
  let res ← res.setHeader "Access-Control-Allow-Headers"
    (.single "Content-Type, Authorization, x-api-version")
  res.setHeader "Access-Control-Max-Age" (.single "86400")

/-- The template literal of line 31. -/
def targetUrl (path : Option String) : String :=
  "https://" ++ VEEAM_SERVER ++ ":" ++ toString VEEAM_PORT ++ templateStr path

/-- The listener passed to `http.createServer` (lines 11-74), up to its return; the two
callbacks it registers run later, see `step`. -/
def requestListener (parse : UrlParse) (c : Conn) : Conn :=
  match setCorsHeaders c.res with
  | .error e => { c with uncaught := some e }
  | .ok res =>
    let c := { c with res := res }
    if c.req.method = "OPTIONS" then
      match c.res.writeHead 200 with
      | .error e => { c with uncaught := some e }
      | .ok res =>
        match res.res_end none with
        | .error e => { c with res := res, uncaught := some e }
        | .ok res => { c with res := res }
    else
      let c := { c with log := c.log ++ ["Proxying: " ++ c.req.method ++ " " ++ c.req.url] }
      match parse c.req.url with
      | .error e => { c with uncaught := some e }
      | .ok path =>
        let c := { c with log := c.log ++ ["Target: " ++ targetUrl path] }
        let (heap, copy) := c.heap.alloc (c.heap.read c.req.headers)
        let options : RequestOptions :=
          { hostname := VEEAM_SERVER, port := VEEAM_PORT, path := path,
            method := c.req.method, headers := copy, rejectUnauthorized := false }
        let heap := heap.mutate options.headers (deleteKey "host")
        let heap := heap.mutate options.headers (deleteKey "origin")
        let proxyReq := httpsRequest heap options
        { c with heap := heap, outbound := c.outbound ++ [proxyReq] }

/-! ## The callbacks on the outbound request -/

/-- What the outbound request and the upstream response emit: the `'response'` event with
status and header object, `'data'` and `'end'` of the upstream body, and `'error'` on the
outbound request. -/
inductive UpstreamEvent where
  | response (statusCode : Nat) (headers : HeaderObj)
  | data (chunk : String)
  | finish
  | error (message : String)
  deriving DecidableEq, Repr

/-- The `forEach` of lines 55-59 over the keys of `proxyRes.headers`; on an exception of
`setHeader` it stops with the response as it is at that point. -/
def copyHeaders : HeaderObj → ServerResponse → ServerResponse × Option String
  | [], res => (res, none)
  | (key, value) :: more, res =>
    if !(startsWith (toLowerCase key) "access-control-") then
      match res.setHeader key value with
      | .ok res => copyHeaders more res
      | .error e => (res, some e)
    else copyHeaders more res

/-- The response callback of lines 50-63. -/
def onResponse (c : Conn) (statusCode : Nat) (headers : HeaderObj) : Conn :=
  let res := { c.res with statusCode := statusCode }
  match copyHeaders headers res with
  | (res, some e) => { c with res := res, uncaught := some e }
  | (res, none) => { c with res := res, piping := true }

/-- The `'error'` listener of lines 66-70. -/
def onError (c : Conn) (message : String) : Conn :=
  let c := { c with log := c.log ++ ["Proxy error: " ++ message] }
  let res := { c.res with statusCode := 500 }
  match res.res_end (some ("Proxy Error: " ++ message)) with
  | .error e => { c with res := res, uncaught := some e }
  | .ok res => { c with res := res }

/-- What `proxyRes.pipe(res)` does with a chunk of the upstream body: `res.write(chunk)`,
whose exception nobody catches. -/
def onData (c : Conn) (chunk : String) : Conn :=
  match c.res.write chunk with
  | .error e => { c with uncaught := some e }
  | .ok res => { c with res := res }

/-- What `proxyRes.pipe(res)` does at the end of the upstream body: `res.end()`. -/
def onEnd (c : Conn) : Conn :=
  match c.res.res_end none with
  | .error e => { c with uncaught := some e }
  | .ok res => { c with res := res }

/-- Delivery of one event.  Listeners exist only once `https.request` has been called, and
nothing runs after an uncaught exception. -/
def step (c : Conn) (e : UpstreamEvent) : Conn :=
  if c.outbound = [] ∨ c.uncaught ≠ none then c
  else
    match e with
    | .response statusCode headers => onResponse c statusCode headers
    | .data chunk => if c.piping then onData c chunk else c
    | .finish => if c.piping then onEnd c else c
    | .error message => onError c message

/-- Delivery of a sequence of events. -/
def run (c : Conn) (events : List UpstreamEvent) : Conn :=
  events.foldl step c

/-- Handling of one inbound request: the listener, then the upstream events. -/
def handle (parse : UrlParse) (heap : Heap) (req : IncomingMessage)
    (events : List UpstreamEvent) : Conn :=
  run (requestListener parse (Conn.accept heap req)) events

/-- The header mapping written by lines 13-16. -/
def corsHeaders : HeaderObj :=
  [("Access-Control-Allow-Origin", .single "*"),
   ("Access-Control-Allow-Methods", .single "GET, POST, PUT, DELETE, OPTIONS"),
   ("Access-Control-Allow-Headers", .single "Content-Type, Authorization, x-api-version"),
   ("Access-Control-Max-Age", .single "86400")]

/-- Case-insensitive header lookup, as `res.getHeader` and HTTP clients do it. -/
def getHeader (name : String) (o : HeaderObj) : Option HeaderValue :=
  (o.find? (fun e => decide (toLowerCase e.1 = toLowerCase name))).map Prod.snd

/-! ## States and predicates used in the statements -/

/-- The heap after lines 41, 46 and 47. -/
def forwardHeap (heap : Heap) (req : IncomingMessage) : Heap :=
  (((heap.alloc (heap.read req.headers)).1.mutate heap.objs.length (deleteKey "host")).mutate
    heap.objs.length (deleteKey "origin"))

/-- The response object after lines 13-16. -/
def corsResponse (method : String) : ServerResponse :=
  { ServerResponse.fresh method with headers := corsHeaders }

/-- The response object after the preflight branch (lines 20-21). -/
def preflightResponse : ServerResponse :=
  { statusCode := 200, headers := corsHeaders, hasBody := true, headersSent := true,
    sentStatus := some 200, sentHeaders := corsHeaders, body := "", finished := true }

/-- The outbound request built for a request whose parsed path is `p`. -/
def forwardedRequest (heap : Heap) (req : IncomingMessage) (p : Option String) :
    ClientRequest :=
  { hostname := VEEAM_SERVER, port := VEEAM_PORT, path := p, method := req.method,
    headers := deleteKey "origin" (deleteKey "host" (heap.read req.headers)),
    rejectUnauthorized := false }

/-- The name is one of the `access-control-` family, in any letter case (line 56). -/
def isAccessControl (name : String) : Bool :=
  startsWith (toLowerCase name) "access-control-"

/-- The CORS block is authoritative in a header mapping: the four headers of lines 13-16
are present with their fixed values, and every `access-control-` entry is one of them. -/
def CorsAuthoritative (h : HeaderObj) : Prop :=
  (∀ e ∈ corsHeaders, getHeader e.1 h = some e.2) ∧
  (∀ e ∈ h, isAccessControl e.1 = true → e ∈ corsHeaders)

/-- The headers of the response object after the loop of lines 55-59 when `setHeader`
does not throw. -/
def relayedHeaders : HeaderObj → HeaderObj → HeaderObj
  | [], acc => acc
  | (key, value) :: more, acc =>
    if !(isAccessControl key) then relayedHeaders more (setEntry key value acc)
    else relayedHeaders more acc

/-- Invariant of the response object from the end of lines 13-16 on: the CORS block is
authoritative among the headers set, and among the headers sent once they are sent. -/
def CorsInv (res : ServerResponse) : Prop :=
  CorsAuthoritative res.headers ∧
  (res.headersSent = true → CorsAuthoritative res.sentHeaders)

/-- The calls that `proxyRes.pipe(res)` makes for a whole upstream body: `res.write` for
each chunk, then `res.end()`. -/
def pipeAll (res : ServerResponse) : List String → Except String ServerResponse
  | [] => res.res_end none
  | x :: xs =>
    match res.write x with
    | .error e => .error e
    | .ok r => pipeAll r xs

/-- The response object after a complete upstream answer with a valid status. -/
def relayedResponse (method : String) (sc : Nat) (up : HeaderObj) (chunks : List String) :
    ServerResponse :=
  { statusCode := sc, headers := relayedHeaders up corsHeaders,
    hasBody := decide (method ≠ "HEAD") && !(statusHasNoBody sc), headersSent := true,
    sentStatus := some sc, sentHeaders := relayedHeaders up corsHeaders,
    body := if decide (method ≠ "HEAD") && !(statusHasNoBody sc) then String.join chunks
            else "",
    finished := true }

/-- The response object after a failure that precedes any upstream answer. -/
def failureResponse (method : String) (m : String) : ServerResponse :=
  { statusCode := 500, headers := corsHeaders, hasBody := decide (method ≠ "HEAD"),
    headersSent := true, sentStatus := some 500, sentHeaders := corsHeaders,
    body := if method = "HEAD" then "" else "Proxy Error: " ++ m, finished := true }

/-! ## A sample exchange -/

/-- A heap holding the header object of a browser request. -/
def exampleHeap : Heap :=
  ⟨[[("host", .single "localhost:3000"), ("origin", .single "http://localhost:8080"),
     ("content-type", .single "application/json"), ("x-api-version", .single "1.1-rev1"),
     ("set-cookie", .multi ["a=1", "b=2"])]]⟩

/-- A `POST` to a path with a query. -/
def exampleRequest : IncomingMessage :=
  { method := "POST", url := "/api/v1/jobs?limit=5", headers := 0 }

/-- A preflight request for the same path. -/
def examplePreflight : IncomingMessage :=
  { method := "OPTIONS", url := "/api/v1/jobs?limit=5", headers := 0 }

/-- A `HEAD` request for the same path. -/
def exampleHead : IncomingMessage :=
  { method := "HEAD", url := "/api/v1/jobs?limit=5", headers := 0 }

/-- Header object of an upstream answer that carries a CORS header of its own. -/
def exampleUpstreamHeaders : HeaderObj :=
  [("content-type", .single "application/json"),
   ("access-control-allow-origin", .single "https://veeam.example")]


/-! ## Facts about the heap -/

theorem Heap.read_alloc_new (h : Heap) (o : HeaderObj) :
    (h.alloc o).1.read (h.alloc o).2 = o := by
  simp [Heap.alloc, Heap.read, List.getD_eq_getElem?_getD]

theorem Heap.read_alloc_old (h : Heap) (o : HeaderObj) (r : Nat) (hr : r < h.objs.length) :
    (h.alloc o).1.read r = h.read r := by
  simp [Heap.alloc, Heap.read, List.getD_eq_getElem?_getD, List.getElem?_append_left hr]

theorem Heap.read_mutate_same (h : Heap) (r : Nat) (f : HeaderObj → HeaderObj)
    (hr : r < h.objs.length) : (h.mutate r f).read r = f (h.read r) := by
  simp [Heap.mutate, Heap.read, List.getD_eq_getElem?_getD, hr]

theorem Heap.read_mutate_other (h : Heap) (r s : Nat) (f : HeaderObj → HeaderObj)
    (hrs : r ≠ s) : (h.mutate r f).read s = h.read s := by
  simp [Heap.mutate, Heap.read, List.getD_eq_getElem?_getD, List.getElem?_set_ne hrs]

theorem Heap.length_mutate (h : Heap) (r : Nat) (f : HeaderObj → HeaderObj) :
    (h.mutate r f).objs.length = h.objs.length := by
  simp [Heap.mutate]

theorem Heap.length_alloc (h : Heap) (o : HeaderObj) :
    (h.alloc o).1.objs.length = h.objs.length + 1 := by
  simp [Heap.alloc]

theorem forwardHeap_read_copy (heap : Heap) (req : IncomingMessage) :
    (forwardHeap heap req).read heap.objs.length
      = deleteKey "origin" (deleteKey "host" (heap.read req.headers)) := by
  unfold forwardHeap
  have h0 : heap.objs.length < (heap.alloc (heap.read req.headers)).1.objs.length := by
    rw [Heap.length_alloc]; exact Nat.lt_succ_self _
  have h1 := Heap.read_alloc_new heap (heap.read req.headers)
  rw [Heap.read_mutate_same _ _ _ (by rw [Heap.length_mutate]; exact h0),
    Heap.read_mutate_same _ _ _ h0]
  simpa [Heap.alloc] using congrArg (fun o => deleteKey "origin" (deleteKey "host" o)) h1

theorem forwardHeap_read_old (heap : Heap) (req : IncomingMessage) (r : Nat)
    (hr : r < heap.objs.length) : (forwardHeap heap req).read r = heap.read r := by
  unfold forwardHeap
  rw [Heap.read_mutate_other _ _ _ _ (Nat.ne_of_gt hr),
    Heap.read_mutate_other _ _ _ _ (Nat.ne_of_gt hr), Heap.read_alloc_old _ _ _ hr]

/-! ## The listener in closed form -/

theorem setCorsHeaders_fresh (method : String) :
    setCorsHeaders (ServerResponse.fresh method) = .ok (corsResponse method) := by
  rfl

theorem requestListener_options (parse : UrlParse) (heap : Heap) (req : IncomingMessage)
    (hm : req.method = "OPTIONS") :
    requestListener parse (Conn.accept heap req) =
      { heap := heap, req := req, res := preflightResponse, outbound := [], piping := false,
        log := [], uncaught := none } := by
  simp only [requestListener, Conn.accept, setCorsHeaders_fresh, hm, if_true]
  rfl

theorem requestListener_threw (parse : UrlParse) (heap : Heap) (req : IncomingMessage)
    (e : String) (hm : req.method ≠ "OPTIONS") (hp : parse req.url = .error e) :
    requestListener parse (Conn.accept heap req) =
      { heap := heap, req := req, res := corsResponse req.method, outbound := [],
        piping := false, log := ["Proxying: " ++ req.method ++ " " ++ req.url],
        uncaught := some e } := by
  simp [requestListener, Conn.accept, setCorsHeaders_fresh, hm, hp]

theorem requestListener_forward (parse : UrlParse) (heap : Heap) (req : IncomingMessage)
    (p : Option String) (hm : req.method ≠ "OPTIONS") (hp : parse req.url = .ok p) :
    requestListener parse (Conn.accept heap req) =
      { heap := forwardHeap heap req, req := req, res := corsResponse req.method,
        outbound := [forwardedRequest heap req p], piping := false,
        log := ["Proxying: " ++ req.method ++ " " ++ req.url, "Target: " ++ targetUrl p],
        uncaught := none } := by
  have h := forwardHeap_read_copy heap req
  simp only [forwardHeap, Heap.alloc] at h
  simp [requestListener, Conn.accept, setCorsHeaders_fresh, hm, hp, httpsRequest,
    forwardedRequest, forwardHeap, Heap.alloc, h]

/-! ## Frame facts of the callbacks -/

theorem step_frame (c : Conn) (e : UpstreamEvent) :
    (step c e).outbound = c.outbound ∧ (step c e).heap = c.heap ∧ (step c e).req = c.req := by
  unfold step
  split
  · exact ⟨rfl, rfl, rfl⟩
  · cases e with
    | response s h =>
      simp only [onResponse]
      split <;> exact ⟨rfl, rfl, rfl⟩
    | data chunk =>
      simp only [onData]
      split
      · split <;> exact ⟨rfl, rfl, rfl⟩
      · exact ⟨rfl, rfl, rfl⟩
    | finish =>
      simp only [onEnd]
      split
      · split <;> exact ⟨rfl, rfl, rfl⟩
      · exact ⟨rfl, rfl, rfl⟩
    | error m =>
      simp only [onError]
      split <;> exact ⟨rfl, rfl, rfl⟩

theorem run_frame (c : Conn) (events : List UpstreamEvent) :
    (run c events).outbound = c.outbound ∧ (run c events).heap = c.heap ∧
      (run c events).req = c.req := by
  induction events generalizing c with
  | nil => exact ⟨rfl, rfl, rfl⟩
  | cons e es ih =>
    have h1 := step_frame c e
    have h2 := ih (step c e)
    simp only [run, List.foldl_cons] at h2 ⊢
    exact ⟨h2.1.trans h1.1, h2.2.1.trans h1.2.1, h2.2.2.trans h1.2.2⟩

theorem run_no_outbound (c : Conn) (events : List UpstreamEvent) (h : c.outbound = []) :
    run c events = c := by
  induction events with
  | nil => rfl
  | cons e es ih =>
    have hs : step c e = c := by simp [step, h]
    simp only [run, List.foldl_cons, hs] at ih ⊢
    exact ih

/-! ## Header bookkeeping of the response object -/

theorem mem_setEntry (k : String) (v : HeaderValue) (h : HeaderObj)
    (e : String × HeaderValue) (he : e ∈ setEntry k v h) : e = (k, v) ∨ e ∈ h := by
  induction h with
  | nil => simpa [setEntry] using he
  | cons x xs ih =>
    simp only [setEntry] at he
    split at he
    · rcases List.mem_cons.1 he with h1 | h1
      · exact Or.inl h1
      · exact Or.inr (List.mem_cons_of_mem _ h1)
    · rcases List.mem_cons.1 he with h1 | h1
      · exact Or.inr (h1 ▸ List.mem_cons_self _ _)
      · rcases ih h1 with h2 | h2
        · exact Or.inl h2
        · exact Or.inr (List.mem_cons_of_mem _ h2)

theorem getHeader_setEntry_self (k : String) (v : HeaderValue) (h : HeaderObj) :
    getHeader k (setEntry k v h) = some v := by
  induction h with
  | nil => simp [setEntry, getHeader]
  | cons x xs ih =>
    simp only [setEntry]
    split
    · simp [getHeader]
    · rename_i hne
      simp only [getHeader, List.find?_cons, hne, decide_False] at ih ⊢
      exact ih

theorem getHeader_setEntry_other (k n : String) (v : HeaderValue) (h : HeaderObj)
    (hne : toLowerCase k ≠ toLowerCase n) :
    getHeader n (setEntry k v h) = getHeader n h := by
  induction h with
  | nil => simp [setEntry, getHeader, hne]
  | cons x xs ih =>
    simp only [setEntry]
    split
    · rename_i heq
      have hx : toLowerCase x.1 ≠ toLowerCase n := heq ▸ hne
      simp [getHeader, hne, hx]
    · by_cases hx : toLowerCase x.1 = toLowerCase n
      · simp [getHeader, hx]
      · simp only [getHeader, List.find?_cons, hx, decide_False] at ih ⊢
        exact ih

theorem isAccessControl_congr (a b : String) (h : toLowerCase a = toLowerCase b) :
    isAccessControl a = isAccessControl b := by
  simp [isAccessControl, h]

theorem corsHeaders_isAccessControl (e : String × HeaderValue) (he : e ∈ corsHeaders) :
    isAccessControl e.1 = true := by
  simp only [corsHeaders, List.mem_cons, List.mem_singleton, List.not_mem_nil, or_false] at he
  rcases he with h | h | h | h <;> subst h <;> rfl

theorem CorsAuthoritative.setEntry (k : String) (v : HeaderValue) (h : HeaderObj)
    (hk : isAccessControl k = false) (hc : CorsAuthoritative h) :
    CorsAuthoritative (setEntry k v h) := by
  refine ⟨fun e he => ?_, fun e he hac => ?_⟩
  · have hne : toLowerCase k ≠ toLowerCase e.1 := by
      intro heq
      have := isAccessControl_congr _ _ heq
      rw [hk, corsHeaders_isAccessControl e he] at this
      exact Bool.noConfusion this
    rw [getHeader_setEntry_other k e.1 v h hne]
    exact hc.1 e he
  · rcases mem_setEntry k v h e he with h1 | h1
    · subst h1
      rw [hk] at hac
      exact Bool.noConfusion hac
    · exact hc.2 e h1 hac

theorem CorsAuthoritative.relayedHeaders (up acc : HeaderObj) (hc : CorsAuthoritative acc) :
    CorsAuthoritative (relayedHeaders up acc) := by
  induction up generalizing acc with
  | nil => exact hc
  | cons x xs ih =>
    obtain ⟨key, value⟩ := x
    simp only [VeeamProxy.relayedHeaders]
    split
    · rename_i hk
      exact ih _ (CorsAuthoritative.setEntry key value acc (by simpa using hk) hc)
    · exact ih _ hc

theorem corsHeaders_authoritative : CorsAuthoritative corsHeaders := by
  refine ⟨fun e he => ?_, fun e he _ => he⟩
  simp only [corsHeaders, List.mem_cons, List.mem_singleton, List.not_mem_nil, or_false] at he
  rcases he with h | h | h | h <;> subst h <;> rfl

/-- While the header block is unsent the copy loop does not throw. -/
theorem copyHeaders_unsent (up : HeaderObj) (res : ServerResponse)
    (hs : res.headersSent = false) :
    copyHeaders up res = ({ res with headers := relayedHeaders up res.headers }, none) := by
  induction up generalizing res with
  | nil => rfl
  | cons x xs ih =>
    obtain ⟨key, value⟩ := x
    obtain ⟨sc, hd, sent, ss, sh, bd, fin⟩ := res
    simp only at hs
    subst hs
    simp only [copyHeaders, relayedHeaders, isAccessControl, ServerResponse.setHeader]
    split
    · simp only [Bool.false_eq_true, if_false]
      exact ih _ rfl
    · exact ih _ rfl

/-- Once the header block is sent the copy loop changes no header. -/
theorem copyHeaders_sent (up : HeaderObj) (res : ServerResponse)
    (hs : res.headersSent = true) : (copyHeaders up res).1 = res := by
  induction up generalizing res with
  | nil => rfl
  | cons x xs ih =>
    obtain ⟨key, value⟩ := x
    simp only [copyHeaders, ServerResponse.setHeader, hs, if_true]
    split
    · rfl
    · exact ih res hs

/-- The copy loop changes nothing of what has been committed to the caller. -/
theorem copyHeaders_committed (up : HeaderObj) (res : ServerResponse) :
    (copyHeaders up res).1.headersSent = res.headersSent ∧
    (copyHeaders up res).1.sentStatus = res.sentStatus ∧
    (copyHeaders up res).1.sentHeaders = res.sentHeaders ∧
    (copyHeaders up res).1.body = res.body ∧
    (copyHeaders up res).1.finished = res.finished ∧
    (copyHeaders up res).1.statusCode = res.statusCode := by
  cases hs : res.headersSent with
  | true =>
    rw [copyHeaders_sent up res hs]
    exact ⟨hs, rfl, rfl, rfl, rfl, rfl⟩
  | false =>
    rw [copyHeaders_unsent up res hs]
    exact ⟨hs, rfl, rfl, rfl, rfl, rfl⟩

theorem copyHeaders_authoritative (up : HeaderObj) (res : ServerResponse)
    (hc : CorsAuthoritative res.headers) :
    CorsAuthoritative (copyHeaders up res).1.headers := by
  cases hs : res.headersSent with
  | true => rw [copyHeaders_sent up res hs]; exact hc
  | false =>
    rw [copyHeaders_unsent up res hs]
    exact CorsAuthoritative.relayedHeaders up res.headers hc

/-! ## Facts about the response object -/

theorem writeHead_ok (res r : ServerResponse) (code : Nat) (h : res.writeHead code = .ok r) :
    r.headers = res.headers ∧ r.headersSent = true ∧ r.sentHeaders = res.headers ∧
    r.body = res.body ∧ r.finished = res.finished ∧ res.headersSent = false := by
  unfold ServerResponse.writeHead at h
  split at h
  · cases h
  · rename_i hs
    simp only at h
    split at h
    · cases h
    · cases h
      exact ⟨rfl, rfl, rfl, rfl, rfl, by simpa using hs⟩

theorem implicitHeader_ok (res r : ServerResponse) (h : res.implicitHeader = .ok r) :
    r.headers = res.headers ∧ r.headersSent = true ∧ r.body = res.body ∧
    r.finished = res.finished ∧
    (res.headersSent = true → r = res) ∧ (res.headersSent = false → r.sentHeaders = res.headers) := by
  unfold ServerResponse.implicitHeader at h
  split at h
  · rename_i hs
    cases h
    exact ⟨rfl, hs, rfl, rfl, fun _ => rfl, fun hf => (by rw [hs] at hf; cases hf)⟩
  · have h1 := writeHead_ok res r res.statusCode h
    exact ⟨h1.1, h1.2.1, h1.2.2.2.1, h1.2.2.2.2.1,
      fun ht => (by rw [h1.2.2.2.2.2] at ht; cases ht), fun _ => h1.2.2.1⟩

/-- The header block is sent at once when it is already out or the status is valid. -/
theorem implicitHeader_valid (res : ServerResponse)
    (hv : 100 ≤ res.statusCode ∧ res.statusCode ≤ 999) (hs : res.headersSent = false) :
    res.implicitHeader =
      .ok { res with headersSent := true, sentStatus := some res.statusCode,
                     sentHeaders := res.headers,
                     hasBody := res.hasBody && !(statusHasNoBody res.statusCode) } := by
  have hmod : res.statusCode % 4294967296 = res.statusCode :=
    Nat.mod_eq_of_lt (by omega)
  have hnot : ¬ (res.statusCode < 100 ∨ 999 < res.statusCode) := by omega
  simp only [ServerResponse.implicitHeader, ServerResponse.writeHead, hs, Bool.false_eq_true,
    if_false, hmod, hnot]

theorem implicitHeader_sent (res : ServerResponse) (hs : res.headersSent = true) :
    res.implicitHeader = .ok res := by
  simp [ServerResponse.implicitHeader, hs]

/-! ## Invariant: the CORS block stays authoritative -/

theorem CorsInv.implicitHeader (res r : ServerResponse) (h : CorsInv res)
    (hr : res.implicitHeader = .ok r) : CorsInv r := by
  have h1 := implicitHeader_ok res r hr
  cases hs : res.headersSent with
  | true => rw [h1.2.2.2.2.1 hs]; exact h
  | false =>
    refine ⟨by rw [h1.1]; exact h.1, fun _ => ?_⟩
    rw [h1.2.2.2.2.2 hs]
    exact h.1

theorem CorsInv.of_same (res r : ServerResponse) (h : CorsInv res)
    (h1 : r.headers = res.headers) (h2 : r.headersSent = res.headersSent)
    (h3 : r.sentHeaders = res.sentHeaders) : CorsInv r := by
  unfold CorsInv at h ⊢
  rw [h1, h2, h3]
  exact h

theorem CorsInv.write (res r : ServerResponse) (chunk : String) (h : CorsInv res)
    (hr : res.write chunk = .ok r) : CorsInv r := by
  unfold ServerResponse.write at hr
  split at hr
  · cases hr; exact h
  · split at hr
    · cases hr
    · rename_i r0 h0
      have hi := CorsInv.implicitHeader res r0 h h0
      cases hr
      split
      · exact CorsInv.of_same r0 _ hi rfl rfl rfl
      · exact hi

theorem CorsInv.res_end (res r : ServerResponse) (data : Option String) (h : CorsInv res)
    (hr : res.res_end data = .ok r) : CorsInv r := by
  unfold ServerResponse.res_end at hr
  split at hr
  · cases hr; exact h
  · split at hr
    · cases hr
    · rename_i r0 h0
      have hi := CorsInv.implicitHeader res r0 h h0
      cases hr
      split
      · exact CorsInv.of_same r0 _ hi rfl rfl rfl
      · exact CorsInv.of_same r0 _ hi rfl rfl rfl

theorem CorsInv.step (c : Conn) (e : UpstreamEvent) (h : CorsInv c.res) :
    CorsInv (step c e).res := by
  unfold VeeamProxy.step
  split
  · exact h
  · cases e with
    | response sc up =>
      have h1 := copyHeaders_committed up { c.res with statusCode := sc }
      have h2 := copyHeaders_authoritative up { c.res with statusCode := sc } h.1
      have h3 : CorsInv (copyHeaders up { c.res with statusCode := sc }).1 :=
        ⟨h2, fun hs => by rw [h1.2.2.1]; exact h.2 (by rw [← h1.1]; exact hs)⟩
      simp only [onResponse]
      split <;> rename_i heq <;> rw [heq] at h3 <;> exact h3
    | data chunk =>
      simp only
      split
      · unfold onData
        split
        · exact h
        · rename_i r hr
          exact CorsInv.write c.res r chunk h hr
      · exact h
    | finish =>
      simp only
      split
      · unfold onEnd
        split
        · exact h
        · rename_i r hr
          exact CorsInv.res_end c.res r none h hr
      · exact h
    | error m =>
      have h5 : CorsInv { c.res with statusCode := 500 } := h
      simp only [onError]
      split
      · exact h5
      · rename_i r hr
        exact CorsInv.res_end _ r _ h5 hr

theorem CorsInv.run (c : Conn) (events : List UpstreamEvent) (h : CorsInv c.res) :
    CorsInv (run c events).res := by
  induction events generalizing c with
  | nil => exact h
  | cons e es ih => exact ih (VeeamProxy.step c e) (CorsInv.step c e h)

theorem CorsInv.corsResponse (method : String) : CorsInv (corsResponse method) :=
  ⟨corsHeaders_authoritative, fun h => Bool.noConfusion h⟩

theorem CorsInv.preflightResponse : CorsInv preflightResponse :=
  ⟨corsHeaders_authoritative, fun _ => corsHeaders_authoritative⟩

theorem CorsInv.requestListener (parse : UrlParse) (heap : Heap) (req : IncomingMessage) :
    CorsInv (requestListener parse (Conn.accept heap req)).res := by
  by_cases hm : req.method = "OPTIONS"
  · rw [requestListener_options parse heap req hm]
    exact CorsInv.preflightResponse
  · cases hp : parse req.url with
    | error e =>
      rw [requestListener_threw parse heap req e hm hp]
      exact CorsInv.corsResponse req.method
    | ok p =>
      rw [requestListener_forward parse heap req p hm hp]
      exact CorsInv.corsResponse req.method

/-! ## What has been sent stays sent -/

/-- After `end` no event changes what the caller receives. -/
theorem step_finished (c : Conn) (e : UpstreamEvent) (hf : c.res.finished = true) :
    (step c e).res.finished = true ∧ (step c e).res.sentStatus = c.res.sentStatus ∧
    (step c e).res.sentHeaders = c.res.sentHeaders ∧ (step c e).res.body = c.res.body := by
  unfold step
  split
  · exact ⟨hf, rfl, rfl, rfl⟩
  · cases e with
    | response sc up =>
      have h1 := copyHeaders_committed up { c.res with statusCode := sc }
      simp only [onResponse]
      split <;> rename_i heq <;> rw [heq] at h1 <;>
        exact ⟨h1.2.2.2.2.1.trans hf, h1.2.1, h1.2.2.1, h1.2.2.2.1⟩
    | data chunk =>
      simp only [onData, ServerResponse.write, hf, if_true]
      split <;> exact ⟨hf, rfl, rfl, rfl⟩
    | finish =>
      simp only [onEnd, ServerResponse.res_end, hf, if_true]
      split <;> exact ⟨hf, rfl, rfl, rfl⟩
    | error m =>
      simp [onError, ServerResponse.res_end, hf]

theorem run_finished (c : Conn) (events : List UpstreamEvent) (hf : c.res.finished = true) :
    (run c events).res.finished = true ∧ (run c events).res.sentStatus = c.res.sentStatus ∧
    (run c events).res.sentHeaders = c.res.sentHeaders ∧
    (run c events).res.body = c.res.body := by
  induction events generalizing c with
  | nil => exact ⟨hf, rfl, rfl, rfl⟩
  | cons e es ih =>
    have h1 := step_finished c e hf
    have h2 := ih (step c e) h1.1
    simp only [run, List.foldl_cons] at h2 ⊢
    exact ⟨h2.1, h2.2.1.trans h1.2.1, h2.2.2.1.trans h1.2.2.1, h2.2.2.2.trans h1.2.2.2⟩

/-! ## Closed forms of complete exchanges -/

theorem handle_options (parse : UrlParse) (heap : Heap) (req : IncomingMessage)
    (events : List UpstreamEvent) (hm : req.method = "OPTIONS") :
    handle parse heap req events =
      { heap := heap, req := req, res := preflightResponse, outbound := [], piping := false,
        log := [], uncaught := none } := by
  unfold handle
  rw [requestListener_options parse heap req hm]
  exact run_no_outbound _ events rfl

theorem handle_outbound (parse : UrlParse) (heap : Heap) (req : IncomingMessage)
    (events : List UpstreamEvent) (p : Option String) (hm : req.method ≠ "OPTIONS")
    (hp : parse req.url = .ok p) :
    (handle parse heap req events).outbound = [forwardedRequest heap req p] := by
  unfold handle
  rw [(run_frame _ events).1, requestListener_forward parse heap req p hm hp]

theorem foldl_append_string (chunks : List String) (a : String) :
    chunks.foldl (fun r s => r ++ s) a = a ++ String.join chunks := by
  induction chunks generalizing a with
  | nil => simp [String.join]
  | cons x xs ih =>
    have hj : String.join (x :: xs) = x ++ String.join xs := by
      show List.foldl (fun r s => r ++ s) ("" ++ x) xs = x ++ String.join xs
      rw [ih, String.empty_append]
    rw [List.foldl_cons, ih, hj, String.append_assoc]

theorem join_cons (x : String) (xs : List String) :
    String.join (x :: xs) = x ++ String.join xs := by
  show List.foldl (fun r s => r ++ s) ("" ++ x) xs = x ++ String.join xs
  rw [foldl_append_string, String.empty_append]

/-- Piping a whole body once the header block is out. -/
theorem pipeAll_sent (res : ServerResponse) (chunks : List String)
    (hs : res.headersSent = true) (hf : res.finished = false) :
    pipeAll res chunks =
      .ok { res with body := if res.hasBody then res.body ++ String.join chunks
                             else res.body,
                     finished := true } := by
  obtain ⟨sc, hd, hb, sent, ss, sh, bd, fin⟩ := res
  simp only at hs hf
  subst hs hf
  induction chunks generalizing bd with
  | nil =>
    cases hb <;>
      simp [pipeAll, ServerResponse.res_end, ServerResponse.implicitHeader, String.join]
  | cons x xs ih =>
    cases hb
    · have h := ih bd
      simp only [Bool.false_eq_true, if_false] at h
      simp [pipeAll, ServerResponse.write, ServerResponse.implicitHeader, h]
    · have h := ih (bd ++ x)
      simp only [if_true] at h
      simp [pipeAll, ServerResponse.write, ServerResponse.implicitHeader, h, join_cons,
        String.append_assoc]

/-- Piping a whole body from an unsent header block with a valid status. -/
theorem pipeAll_unsent (res : ServerResponse) (chunks : List String)
    (hs : res.headersSent = false) (hf : res.finished = false)
    (hv : 100 ≤ res.statusCode ∧ res.statusCode ≤ 999) :
    pipeAll res chunks =
      .ok { res with headersSent := true, sentStatus := some res.statusCode,
                     sentHeaders := res.headers,
                     hasBody := res.hasBody && !(statusHasNoBody res.statusCode),
                     body := if res.hasBody && !(statusHasNoBody res.statusCode)
                             then res.body ++ String.join chunks else res.body,
                     finished := true } := by
  have hi := implicitHeader_valid res hv hs
  cases chunks with
  | nil =>
    simp only [pipeAll, ServerResponse.res_end, hf, Bool.false_eq_true, if_false, hi]
    cases hb : (res.hasBody && !(statusHasNoBody res.statusCode)) <;> simp [String.join]
  | cons x xs =>
    simp only [pipeAll, ServerResponse.write, hf, Bool.false_eq_true, if_false, hi]
    cases hb : (res.hasBody && !(statusHasNoBody res.statusCode))
    · simp only [Bool.false_eq_true, if_false]
      refine Eq.trans (pipeAll_sent _ xs rfl rfl) ?_
      simp
    · simp only [if_true]
      refine Eq.trans (pipeAll_sent _ xs rfl rfl) ?_
      simp [join_cons, String.append_assoc]

/-- The events of a whole upstream body act on the response object as `pipeAll`. -/
theorem run_piped (c : Conn) (chunks : List String) (r : ServerResponse)
    (hp : c.piping = true) (ho : c.outbound ≠ []) (hu : c.uncaught = none)
    (h : pipeAll c.res chunks = .ok r) :
    (run c (chunks.map UpstreamEvent.data ++ [.finish])).res = r := by
  induction chunks generalizing c with
  | nil =>
    simp only [pipeAll] at h
    simp [run, step, ho, hu, hp, onEnd, h]
  | cons x xs ih =>
    simp only [pipeAll] at h
    cases hw : c.res.write x with
    | error e => rw [hw] at h; cases h
    | ok r1 =>
      rw [hw] at h
      have hstep : step c (.data x) = { c with res := r1 } := by
        simp [step, ho, hu, hp, onData, hw]
      simp only [List.map_cons, List.cons_append, run, List.foldl_cons, hstep]
      exact ih { c with res := r1 } hp ho hu h

theorem step_response_first (parse : UrlParse) (heap : Heap) (req : IncomingMessage)
    (p : Option String) (sc : Nat) (up : HeaderObj) (hm : req.method ≠ "OPTIONS")
    (hp : parse req.url = .ok p) :
    step (requestListener parse (Conn.accept heap req)) (.response sc up) =
      { heap := forwardHeap heap req, req := req,
        res := { statusCode := sc, headers := relayedHeaders up corsHeaders,
                 hasBody := decide (req.method ≠ "HEAD"), headersSent := false,
                 sentStatus := none, sentHeaders := [], body := "", finished := false },
        outbound := [forwardedRequest heap req p], piping := true,
        log := ["Proxying: " ++ req.method ++ " " ++ req.url, "Target: " ++ targetUrl p],
        uncaught := none } := by
  rw [requestListener_forward parse heap req p hm hp]
  have h1 := copyHeaders_unsent up { corsResponse req.method with statusCode := sc } rfl
  simp only [step, ne_eq, List.cons_ne_self, not_false_eq_true, not_true_eq_false, or_self,
    if_false, onResponse, h1, List.cons_ne_nil]
  rfl

theorem handle_relayed (parse : UrlParse) (heap : Heap) (req : IncomingMessage)
    (p : Option String) (sc : Nat) (up : HeaderObj) (chunks : List String)
    (hm : req.method ≠ "OPTIONS") (hp : parse req.url = .ok p)
    (hv : 100 ≤ sc ∧ sc ≤ 999) :
    (handle parse heap req
      (.response sc up :: (chunks.map UpstreamEvent.data ++ [.finish]))).res
      = relayedResponse req.method sc up chunks := by
  have hpipe := pipeAll_unsent
    { statusCode := sc, headers := relayedHeaders up corsHeaders,
      hasBody := decide (req.method ≠ "HEAD"), headersSent := false,
      sentStatus := none, sentHeaders := [], body := "", finished := false }
    chunks rfl rfl hv
  have hrun := run_piped (step (requestListener parse (Conn.accept heap req))
    (.response sc up)) chunks _
    (by rw [step_response_first parse heap req p sc up hm hp])
    (by rw [step_response_first parse heap req p sc up hm hp]; simp)
    (by rw [step_response_first parse heap req p sc up hm hp])
    (by rw [step_response_first parse heap req p sc up hm hp]; exact hpipe)
  unfold handle
  simp only [run, List.foldl_cons] at hrun ⊢
  rw [hrun]
  simp [relayedResponse, corsResponse, ServerResponse.fresh]

theorem step_error_first (parse : UrlParse) (heap : Heap) (req : IncomingMessage)
    (p : Option String) (m : String) (hm : req.method ≠ "OPTIONS")
    (hp : parse req.url = .ok p) :
    (step (requestListener parse (Conn.accept heap req)) (.error m)).res
      = failureResponse req.method m := by
  rw [requestListener_forward parse heap req p hm hp]
  have hv : 100 ≤ 500 ∧ 500 ≤ 999 := by decide
  have hi := implicitHeader_valid { corsResponse req.method with statusCode := 500 } hv rfl
  simp only [step, ne_eq, List.cons_ne_nil, not_false_eq_true, not_true_eq_false, or_self,
    if_false, onError, ServerResponse.res_end, hi]
  by_cases hh : req.method = "HEAD"
  · simp [failureResponse, corsResponse, ServerResponse.fresh, hh, statusHasNoBody]
  · simp [failureResponse, corsResponse, ServerResponse.fresh, hh, statusHasNoBody]

theorem relayedHeaders_lookup_absent (up acc : HeaderObj) (n : String)
    (h : ∀ e ∈ up, toLowerCase e.1 ≠ toLowerCase n) :
    getHeader n (relayedHeaders up acc) = getHeader n acc := by
  induction up generalizing acc with
  | nil => rfl
  | cons x xs ih =>
    obtain ⟨key, value⟩ := x
    have hx : ∀ e ∈ xs, toLowerCase e.1 ≠ toLowerCase n :=
      fun e he => h e (List.mem_cons_of_mem _ he)
    simp only [relayedHeaders]
    split
    · rw [ih _ hx]
      exact getHeader_setEntry_other key n value acc (h (key, value) (List.mem_cons_self _ _))
    · exact ih _ hx

theorem relayedHeaders_lookup (up acc : HeaderObj) (k : String) (v : HeaderValue)
    (hmem : (k, v) ∈ up) (hk : isAccessControl k = false)
    (hkeys : (up.map (fun e => toLowerCase e.1)).Nodup) :
    getHeader k (relayedHeaders up acc) = some v := by
  induction up generalizing acc with
  | nil => cases hmem
  | cons x xs ih =>
    obtain ⟨key, value⟩ := x
    rw [List.map_cons, List.nodup_cons] at hkeys
    rcases List.mem_cons.1 hmem with h1 | h1
    · cases h1
      have habs : ∀ e ∈ xs, toLowerCase e.1 ≠ toLowerCase k := by
        intro e he heq
        exact hkeys.1 (heq ▸ List.mem_map_of_mem (fun e => toLowerCase e.1) he)
      simp only [relayedHeaders, hk, Bool.not_false, if_true]
      rw [relayedHeaders_lookup_absent xs _ k habs]
      exact getHeader_setEntry_self k v acc
    · simp only [relayedHeaders]
      split
      · exact ih _ h1 hkeys.2
      · exact ih _ h1 hkeys.2

/-! ## The fast path of `url.parse` -/

theorem dropWhile_none (q : Char → Bool) (l : List Char) (h : ∀ c ∈ l, q c = false) :
    l.dropWhile q = l := by
  cases l with
  | nil => rfl
  | cons c cs => simp [List.dropWhile, h c (List.mem_cons_self _ _)]

theorem trimWs_plain (l : List Char) (h : ∀ c ∈ l, isWs c = false) : trimWs l = l := by
  unfold trimWs
  rw [dropWhile_none isWs l h,
    dropWhile_none isWs l.reverse (fun c hc => h c (List.mem_reverse.1 hc)),
    List.reverse_reverse]

theorem convertBackslashes_plain (l : List Char) (h : ∀ c ∈ l, c ≠ Char.ofNat 92) :
    convertBackslashes l = l := by
  induction l with
  | nil => rfl
  | cons c cs ih =>
    have hc := h c (List.mem_cons_self _ _)
    have hcs := ih (fun d hd => h d (List.mem_cons_of_mem _ hd))
    by_cases h1 : c = '?' ∨ c = '#'
    · simp only [convertBackslashes, h1, if_true]
    · simp only [convertBackslashes, h1, hc, hcs, if_false]

theorem hasHash_plain (l : List Char) (h : ∀ c ∈ l, c ≠ '#') : hasHash l = false := by
  unfold hasHash
  rw [List.any_eq_false]
  intro c hc
  simpa using h c hc

theorem hasAt_plain (l : List Char) (h : ∀ c ∈ l, c ≠ '@') : hasAt l = false := by
  unfold hasAt
  rw [List.any_eq_false]
  intro c hc
  have hmem : ∀ (m : List Char), c ∈ m.takeWhile (fun c => !(c == '?' || c == '#')) → c ∈ m := by
    intro m
    induction m with
    | nil => intro hx; simp at hx
    | cons d ds ih =>
      intro hx
      rw [List.takeWhile_cons] at hx
      split at hx
      · rcases List.mem_cons.1 hx with h1 | h1
        · exact h1 ▸ List.mem_cons_self _ _
        · exact List.mem_cons_of_mem _ (ih h1)
      · cases hx
  simpa using h c (hmem l hc)

theorem isPlainChar_facts (c : Char) (h : isPlainChar c = true) :
    isWs c = false ∧ c ≠ Char.ofNat 92 ∧ c ≠ '#' ∧ c ≠ '@' := by
  simp only [isPlainChar, Bool.and_eq_true, Bool.not_eq_true', beq_eq_false_iff_ne] at h
  exact ⟨h.1.1.1.1, h.1.1.2, h.1.2, h.2⟩

/-- On a plain target the model of `url.parse` returns the target itself as `path`. -/
theorem urlParsePath_plain (u : String) (h : isPlainTarget u = true) :
    urlParsePath u = some (some u) := by
  simp only [isPlainTarget, Bool.and_eq_true, List.all_eq_true] at h
  obtain ⟨hpat, hall⟩ := h
  have h1 := trimWs_plain u.data (fun c hc => (isPlainChar_facts c (hall c hc)).1)
  have h2 := convertBackslashes_plain u.data (fun c hc => (isPlainChar_facts c (hall c hc)).2.1)
  have h3 := hasHash_plain u.data (fun c hc => (isPlainChar_facts c (hall c hc)).2.2.1)
  have h4 := hasAt_plain u.data (fun c hc => (isPlainChar_facts c (hall c hc)).2.2.2)
  simp only [urlParsePath, h1, h2, h3, h4, hpat, Bool.not_false, Bool.and_self, if_true]

theorem modelParse_agrees : AgreesWithNode modelParse := by
  intro u p h
  simp [modelParse, h]

theorem targetUrl_eq (p : Option String) :
    targetUrl p = "https://192.168.111.7:9419" ++ templateStr p := by
  unfold targetUrl
  have h : "https://" ++ VEEAM_SERVER ++ ":" ++ toString VEEAM_PORT
      = "https://192.168.111.7:9419" := by decide
  rw [h]

/-! ## The claims -/

/-- C1: an inbound request whose method is `OPTIONS`, with any path and any headers, is
answered with status 200, an empty body and the four CORS headers, and no outbound
request is created (whatever events are delivered afterwards). -/
theorem preflight_answered_locally (parse : UrlParse) (heap : Heap) (req : IncomingMessage)
    (events : List UpstreamEvent) (hm : req.method = "OPTIONS") :
    (handle parse heap req events).res.finished = true ∧
    (handle parse heap req events).res.sentStatus = some 200 ∧
    (handle parse heap req events).res.body = "" ∧
    (handle parse heap req events).res.sentHeaders =
      [("Access-Control-Allow-Origin", .single "*"),
       ("Access-Control-Allow-Methods", .single "GET, POST, PUT, DELETE, OPTIONS"),
       ("Access-Control-Allow-Headers", .single "Content-Type, Authorization, x-api-version"),
       ("Access-Control-Max-Age", .single "86400")] ∧
    (handle parse heap req events).outbound = [] := by
  rw [handle_options parse heap req events hm]
  exact ⟨rfl, rfl, rfl, rfl, rfl⟩

/-- Witness for C1: the sample preflight request. -/
theorem preflight_answered_locally_witness :
    examplePreflight.method = "OPTIONS" ∧
    (handle modelParse exampleHeap examplePreflight []).res.finished = true ∧
    (handle modelParse exampleHeap examplePreflight []).res.sentStatus = some 200 ∧
    (handle modelParse exampleHeap examplePreflight []).res.body = "" ∧
    (handle modelParse exampleHeap examplePreflight []).res.sentHeaders =
      [("Access-Control-Allow-Origin", .single "*"),
       ("Access-Control-Allow-Methods", .single "GET, POST, PUT, DELETE, OPTIONS"),
       ("Access-Control-Allow-Headers", .single "Content-Type, Authorization, x-api-version"),
       ("Access-Control-Max-Age", .single "86400")] ∧
    (handle modelParse exampleHeap examplePreflight []).outbound = [] :=
  ⟨rfl, preflight_answered_locally modelParse exampleHeap examplePreflight [] rfl⟩

/-- C2: for a forwarded request (method other than `OPTIONS`, `url.parse` returned) whose
header object has lower-cased keys, as Node delivers it, the header mapping of the outbound
request is the inbound mapping without the entries whose key is `host` or `origin` up to
letter case: the other entries are kept with their values, in order, multi-valued ones
included, and none is added. -/
theorem outbound_headers_drop_host_origin (parse : UrlParse) (heap : Heap)
    (req : IncomingMessage) (events : List UpstreamEvent) (p : Option String)
    (hm : req.method ≠ "OPTIONS") (hp : parse req.url = .ok p)
    (hlower : ∀ e ∈ heap.read req.headers, toLowerCase e.1 = e.1) :
    (handle parse heap req events).outbound.map (fun o => o.headers) =
      [(heap.read req.headers).filter
        (fun e => decide (toLowerCase e.1 ≠ "host" ∧ toLowerCase e.1 ≠ "origin"))] := by
  rw [handle_outbound parse heap req events p hm hp]
  simp only [List.map_cons, List.map_nil, forwardedRequest, deleteKey, List.filter_filter]
  congr 1
  apply List.filter_congr
  intro e he
  rw [hlower e he]
  simp only [Bool.decide_and, Bool.and_comm]

/-- Witness for C2: the sample request keeps `content-type`, `x-api-version` and the
two-valued `set-cookie`. -/
theorem outbound_headers_drop_host_origin_witness :
    exampleRequest.method ≠ "OPTIONS" ∧
    modelParse exampleRequest.url = .ok (some "/api/v1/jobs?limit=5") ∧
    (∀ e ∈ exampleHeap.read exampleRequest.headers, toLowerCase e.1 = e.1) ∧
    (handle modelParse exampleHeap exampleRequest []).outbound.map (fun o => o.headers) =
      [[("content-type", .single "application/json"), ("x-api-version", .single "1.1-rev1"),
        ("set-cookie", .multi ["a=1", "b=2"])]] :=
  ⟨by decide, rfl, by decide,
   outbound_headers_drop_host_origin modelParse exampleHeap exampleRequest []
     (some "/api/v1/jobs?limit=5") (by decide) rfl (by decide)⟩

/-- C3: every response that is sent (preflight, relayed upstream answer or failure
answer, after any sequence of upstream events) carries the four CORS headers with the
fixed values, whatever the upstream sent, and each header in it whose name begins with
`access-control-` in any letter case is one of those four, so none comes from the
upstream. -/
theorem cors_block_on_every_response (parse : UrlParse) (heap : Heap) (req : IncomingMessage)
    (events : List UpstreamEvent)
    (hsent : (handle parse heap req events).res.headersSent = true) :
    getHeader "Access-Control-Allow-Origin" (handle parse heap req events).res.sentHeaders
      = some (.single "*") ∧
    getHeader "Access-Control-Allow-Methods" (handle parse heap req events).res.sentHeaders
      = some (.single "GET, POST, PUT, DELETE, OPTIONS") ∧
    getHeader "Access-Control-Allow-Headers" (handle parse heap req events).res.sentHeaders
      = some (.single "Content-Type, Authorization, x-api-version") ∧
    getHeader "Access-Control-Max-Age" (handle parse heap req events).res.sentHeaders
      = some (.single "86400") ∧
    (∀ e ∈ (handle parse heap req events).res.sentHeaders,
      startsWith (toLowerCase e.1) "access-control-" = true →
        e ∈ [("Access-Control-Allow-Origin", HeaderValue.single "*"),
             ("Access-Control-Allow-Methods", .single "GET, POST, PUT, DELETE, OPTIONS"),
             ("Access-Control-Allow-Headers",
               .single "Content-Type, Authorization, x-api-version"),
             ("Access-Control-Max-Age", .single "86400")]) := by
  have h := (CorsInv.run _ events (CorsInv.requestListener parse heap req)).2 hsent
  exact ⟨h.1 ("Access-Control-Allow-Origin", .single "*") (by decide),
    h.1 ("Access-Control-Allow-Methods", .single "GET, POST, PUT, DELETE, OPTIONS")
      (by decide),
    h.1 ("Access-Control-Allow-Headers", .single "Content-Type, Authorization, x-api-version")
      (by decide),
    h.1 ("Access-Control-Max-Age", .single "86400") (by decide), h.2⟩

/-- Witness for C3: an upstream answer that carries `access-control-allow-origin`. -/
theorem cors_block_on_every_response_witness :
    (handle modelParse exampleHeap exampleRequest
      [.response 201 exampleUpstreamHeaders, .data "ok", .finish]).res.headersSent = true ∧
    (handle modelParse exampleHeap exampleRequest
      [.response 201 exampleUpstreamHeaders, .data "ok", .finish]).res.sentHeaders =
      [("Access-Control-Allow-Origin", .single "*"),
       ("Access-Control-Allow-Methods", .single "GET, POST, PUT, DELETE, OPTIONS"),
       ("Access-Control-Allow-Headers", .single "Content-Type, Authorization, x-api-version"),
       ("Access-Control-Max-Age", .single "86400"),
       ("content-type", .single "application/json")] ∧
    getHeader "Access-Control-Allow-Origin" (handle modelParse exampleHeap exampleRequest
      [.response 201 exampleUpstreamHeaders, .data "ok", .finish]).res.sentHeaders
      = some (.single "*") :=
  ⟨rfl, by decide,
   (cors_block_on_every_response modelParse exampleHeap exampleRequest
     [.response 201 exampleUpstreamHeaders, .data "ok", .finish] rfl).1⟩

/-- C4 as stated fails: for the request-target `/api/v1/jobs#top` any platform parser that
agrees with Node yields the path `/api/v1/jobs`, so neither the logged target URL nor the
outbound path is the target as received. -/
theorem verbatim_target_fails :
    ¬ ∀ (parse : UrlParse) (heap : Heap) (req : IncomingMessage),
        AgreesWithNode parse → req.method ≠ "OPTIONS" →
        (requestListener parse (Conn.accept heap req)).log =
          ["Proxying: " ++ req.method ++ " " ++ req.url,
           "Target: " ++ ("https://192.168.111.7:9419" ++ req.url)] ∧
        (requestListener parse (Conn.accept heap req)).outbound.map (fun o => o.path) =
          [some req.url] := by
  intro h
  have h1 := h modelParse exampleHeap ⟨"GET", "/api/v1/jobs#top", 0⟩ modelParse_agrees
    (by decide)
  rw [requestListener_forward modelParse exampleHeap ⟨"GET", "/api/v1/jobs#top", 0⟩
    (some "/api/v1/jobs") (by decide) rfl] at h1
  exact absurd h1.2 (by decide)

/-- C4, amended: for a request with a method other than `OPTIONS` on which `url.parse`
returns, the target URL is `https://192.168.111.7:9419` followed by the `path` property of
`url.parse(U)` (rendered as `null` when absent) and the outbound path is that property;
on a platform that agrees with Node, a plain target (leading `/`, not `///`, no
whitespace, backslash, `#` or `@`) is passed on exactly as received. -/
theorem target_is_parsed_path (parse : UrlParse) (heap : Heap) (req : IncomingMessage)
    (p : Option String) (hm : req.method ≠ "OPTIONS") (hp : parse req.url = .ok p) :
    (requestListener parse (Conn.accept heap req)).log =
      ["Proxying: " ++ req.method ++ " " ++ req.url,
       "Target: " ++ ("https://192.168.111.7:9419" ++ templateStr p)] ∧
    (requestListener parse (Conn.accept heap req)).outbound.map (fun o => o.path) = [p] ∧
    (AgreesWithNode parse → isPlainTarget req.url = true → p = some req.url) := by
  rw [requestListener_forward parse heap req p hm hp, targetUrl_eq]
  refine ⟨rfl, rfl, fun hag hplain => ?_⟩
  have h1 := hag req.url (some req.url) (urlParsePath_plain req.url hplain)
  rw [hp] at h1
  exact Except.ok.inj h1

/-- Witness for C4: the sample request has a plain target, which is passed on unchanged. -/
theorem target_is_parsed_path_witness :
    exampleRequest.method ≠ "OPTIONS" ∧
    modelParse exampleRequest.url = .ok (some "/api/v1/jobs?limit=5") ∧
    isPlainTarget exampleRequest.url = true ∧
    (requestListener modelParse (Conn.accept exampleHeap exampleRequest)).log =
      ["Proxying: " ++ exampleRequest.method ++ " " ++ exampleRequest.url,
       "Target: " ++ ("https://192.168.111.7:9419" ++ templateStr (some "/api/v1/jobs?limit=5"))] ∧
    (requestListener modelParse (Conn.accept exampleHeap exampleRequest)).outbound.map
      (fun o => o.path) = [some "/api/v1/jobs?limit=5"] :=
  ⟨by decide, rfl, by decide,
   (target_is_parsed_path modelParse exampleHeap exampleRequest (some "/api/v1/jobs?limit=5")
     (by decide) rfl).1,
   (target_is_parsed_path modelParse exampleHeap exampleRequest (some "/api/v1/jobs?limit=5")
     (by decide) rfl).2.1⟩

/-- C5 as stated fails: when the upstream answers with status 099, the first piped
`res.write` throws `ERR_HTTP_INVALID_STATUS_CODE` out of the implicit `writeHead`, nobody
catches it, and the caller receives neither status nor headers nor body. -/
theorem invalid_status_not_relayed :
    exampleRequest.method ≠ "OPTIONS" ∧
    modelParse exampleRequest.url = .ok (some "/api/v1/jobs?limit=5") ∧
    (handle modelParse exampleHeap exampleRequest
      [.response 99 exampleUpstreamHeaders, .data "late", .finish]).res.headersSent = false ∧
    (handle modelParse exampleHeap exampleRequest
      [.response 99 exampleUpstreamHeaders, .data "late", .finish]).res.sentStatus = none ∧
    (handle modelParse exampleHeap exampleRequest
      [.response 99 exampleUpstreamHeaders, .data "late", .finish]).res.body = "" ∧
    (handle modelParse exampleHeap exampleRequest
      [.response 99 exampleUpstreamHeaders, .data "late", .finish]).uncaught
      = some "ERR_HTTP_INVALID_STATUS_CODE" := by
  refine ⟨?_, rfl, ?_, ?_, ?_, ?_⟩ <;> decide

/-- C5, amended: when the upstream answers a forwarded request with a status `sc` from 100
to 999, a header object `up` (keys distinct up to letter case, as Node delivers it) and a
body in chunks (none for an answer to `HEAD` or with status 204, 304 or 1xx, for which the
HTTP client delivers no body), the caller receives status `sc`, every header of `up` whose
name does not begin with `access-control-` with its value, the four CORS headers, and the
chunks in order as body. -/
theorem upstream_answer_relayed (parse : UrlParse) (heap : Heap) (req : IncomingMessage)
    (p : Option String) (sc : Nat) (up : HeaderObj) (chunks : List String)
    (hm : req.method ≠ "OPTIONS") (hp : parse req.url = .ok p)
    (hsc : 100 ≤ sc ∧ sc ≤ 999)
    (hbody : req.method = "HEAD" ∨ statusHasNoBody sc = true → String.join chunks = "")
    (hkeys : (up.map (fun e => toLowerCase e.1)).Nodup) :
    (handle parse heap req
      (.response sc up :: (chunks.map UpstreamEvent.data ++ [.finish]))).res.finished = true ∧
    (handle parse heap req
      (.response sc up :: (chunks.map UpstreamEvent.data ++ [.finish]))).res.sentStatus
        = some sc ∧
    (handle parse heap req
      (.response sc up :: (chunks.map UpstreamEvent.data ++ [.finish]))).res.body
        = String.join chunks ∧
    (∀ e ∈ up, startsWith (toLowerCase e.1) "access-control-" = false →
      getHeader e.1 (handle parse heap req
        (.response sc up :: (chunks.map UpstreamEvent.data ++ [.finish]))).res.sentHeaders
        = some e.2) ∧
    (∀ e ∈ corsHeaders,
      getHeader e.1 (handle parse heap req
        (.response sc up :: (chunks.map UpstreamEvent.data ++ [.finish]))).res.sentHeaders
        = some e.2) := by
  rw [handle_relayed parse heap req p sc up chunks hm hp hsc]
  refine ⟨rfl, rfl, ?_, fun e he hac => ?_, ?_⟩
  · show (if (decide (req.method ≠ "HEAD") && !(statusHasNoBody sc)) = true
        then String.join chunks else "") = String.join chunks
    split
    · rfl
    · rename_i hno
      refine (hbody ?_).symm
      by_cases hh : req.method = "HEAD"
      · exact Or.inl hh
      · right
        simpa [hh] using hno
  · exact relayedHeaders_lookup up corsHeaders e.1 e.2 he hac hkeys
  · exact (CorsAuthoritative.relayedHeaders up corsHeaders corsHeaders_authoritative).1

/-- Witness for C5: the round trip of the specification: the upstream answers 201 with
body `{"id":7}` and `content-type: application/json` (and a CORS header of its own). -/
theorem upstream_answer_relayed_witness :
    exampleRequest.method ≠ "OPTIONS" ∧
    modelParse exampleRequest.url = .ok (some "/api/v1/jobs?limit=5") ∧
    (100 ≤ 201 ∧ 201 ≤ 999) ∧
    (exampleRequest.method = "HEAD" ∨ statusHasNoBody 201 = true →
      String.join ["\x7b\"id\":7\x7d"] = "") ∧
    (exampleUpstreamHeaders.map (fun e => toLowerCase e.1)).Nodup ∧
    (handle modelParse exampleHeap exampleRequest
      (.response 201 exampleUpstreamHeaders ::
        (["\x7b\"id\":7\x7d"].map UpstreamEvent.data ++ [.finish]))).res.sentStatus
        = some 201 ∧
    (handle modelParse exampleHeap exampleRequest
      (.response 201 exampleUpstreamHeaders ::
        (["\x7b\"id\":7\x7d"].map UpstreamEvent.data ++ [.finish]))).res.body
        = String.join ["\x7b\"id\":7\x7d"] ∧
    (handle modelParse exampleHeap exampleRequest
      (.response 201 exampleUpstreamHeaders ::
        (["\x7b\"id\":7\x7d"].map UpstreamEvent.data ++ [.finish]))).res.body
        = "\x7b\"id\":7\x7d" ∧
    (handle modelParse exampleHeap exampleRequest
      (.response 201 exampleUpstreamHeaders ::
        (["\x7b\"id\":7\x7d"].map UpstreamEvent.data ++ [.finish]))).res.sentHeaders =
      [("Access-Control-Allow-Origin", .single "*"),
       ("Access-Control-Allow-Methods", .single "GET, POST, PUT, DELETE, OPTIONS"),
       ("Access-Control-Allow-Headers", .single "Content-Type, Authorization, x-api-version"),
       ("Access-Control-Max-Age", .single "86400"),
       ("content-type", .single "application/json")] :=
  ⟨by decide, rfl, by decide, by decide, by decide,
   (upstream_answer_relayed modelParse exampleHeap exampleRequest
     (some "/api/v1/jobs?limit=5") 201 exampleUpstreamHeaders ["\x7b\"id\":7\x7d"]
     (by decide) rfl (by decide) (by decide) (by decide)).2.1,
   (upstream_answer_relayed modelParse exampleHeap exampleRequest
     (some "/api/v1/jobs?limit=5") 201 exampleUpstreamHeaders ["\x7b\"id\":7\x7d"]
     (by decide) rfl (by decide) (by decide) (by decide)).2.2.1,
   by decide, by decide⟩

/-- C6 as stated fails: for a forwarded `HEAD` request whose outbound request fails, the
caller receives status 500 and no body, because a response to `HEAD` carries none. -/
theorem head_failure_has_no_body :
    exampleHead.method ≠ "OPTIONS" ∧
    modelParse exampleHead.url = .ok (some "/api/v1/jobs?limit=5") ∧
    (handle modelParse exampleHeap exampleHead
      [.error "connect ECONNREFUSED 192.168.111.7:9419"]).res.finished = true ∧
    (handle modelParse exampleHeap exampleHead
      [.error "connect ECONNREFUSED 192.168.111.7:9419"]).res.sentStatus = some 500 ∧
    (handle modelParse exampleHeap exampleHead
      [.error "connect ECONNREFUSED 192.168.111.7:9419"]).res.body = "" := by
  refine ⟨?_, rfl, ?_, ?_, ?_⟩ <;> decide

/-- C6, amended: when the outbound request of a forwarded request fails with message `m`
before any upstream answer, the caller receives status 500; for every method other than
`HEAD` the body is `Proxy Error: ` followed by `m`, which is not empty, and for `HEAD` no
body is sent; there is still exactly one outbound request (no retry). -/
theorem failure_answered_with_500 (parse : UrlParse) (heap : Heap) (req : IncomingMessage)
    (p : Option String) (m : String) (hm : req.method ≠ "OPTIONS")
    (hp : parse req.url = .ok p) :
    (handle parse heap req [.error m]).res.finished = true ∧
    (handle parse heap req [.error m]).res.sentStatus = some 500 ∧
    (req.method ≠ "HEAD" →
      (handle parse heap req [.error m]).res.body = "Proxy Error: " ++ m ∧
      (handle parse heap req [.error m]).res.body ≠ "") ∧
    (req.method = "HEAD" → (handle parse heap req [.error m]).res.body = "") ∧
    (handle parse heap req [.error m]).outbound.length = 1 := by
  have hne : "Proxy Error: " ++ m ≠ "" := by
    intro h
    have h1 := congrArg String.length h
    rw [String.length_append] at h1
    have h2 : "Proxy Error: ".length = 13 := by decide
    have h3 : "".length = 0 := by decide
    omega
  have hr : (handle parse heap req [.error m]).res = failureResponse req.method m :=
    step_error_first parse heap req p m hm hp
  rw [hr, handle_outbound parse heap req [.error m] p hm hp]
  refine ⟨rfl, rfl, fun hh => ?_, fun hh => ?_, rfl⟩
  · have hb : (failureResponse req.method m).body = "Proxy Error: " ++ m := by
      simp [failureResponse, hh]
    rw [hb]
    exact ⟨rfl, hne⟩
  · simp [failureResponse, hh]

/-- Witness for C6: a refused connection on the sample `POST`. -/
theorem failure_answered_with_500_witness :
    exampleRequest.method ≠ "OPTIONS" ∧
    modelParse exampleRequest.url = .ok (some "/api/v1/jobs?limit=5") ∧
    exampleRequest.method ≠ "HEAD" ∧
    (handle modelParse exampleHeap exampleRequest
      [.error "connect ECONNREFUSED 192.168.111.7:9419"]).res.sentStatus = some 500 ∧
    (handle modelParse exampleHeap exampleRequest
      [.error "connect ECONNREFUSED 192.168.111.7:9419"]).res.body
      = "Proxy Error: " ++ "connect ECONNREFUSED 192.168.111.7:9419" :=
  ⟨by decide, rfl, by decide,
   (failure_answered_with_500 modelParse exampleHeap exampleRequest
     (some "/api/v1/jobs?limit=5") "connect ECONNREFUSED 192.168.111.7:9419"
     (by decide) rfl).2.1,
   ((failure_answered_with_500 modelParse exampleHeap exampleRequest
     (some "/api/v1/jobs?limit=5") "connect ECONNREFUSED 192.168.111.7:9419"
     (by decide) rfl).2.2.1 (by decide)).1⟩

/-- C7 as stated fails. When the failure arrives after a chunk of the upstream body has
been relayed, the caller has status 201, the upstream header and the body chunk followed
by the error text; when it arrives between the upstream head and the first chunk, the
status is 500 but the upstream header is sent with the error text. -/
theorem late_failure_mixes_answers :
    (handle modelParse exampleHeap exampleRequest
      [.response 201 exampleUpstreamHeaders, .data "partial",
       .error "socket hang up"]).res.finished = true ∧
    (handle modelParse exampleHeap exampleRequest
      [.response 201 exampleUpstreamHeaders, .data "partial",
       .error "socket hang up"]).res.sentStatus = some 201 ∧
    (handle modelParse exampleHeap exampleRequest
      [.response 201 exampleUpstreamHeaders, .data "partial",
       .error "socket hang up"]).res.sentStatus ≠ some 500 ∧
    (handle modelParse exampleHeap exampleRequest
      [.response 201 exampleUpstreamHeaders, .data "partial",
       .error "socket hang up"]).res.body = "partialProxy Error: socket hang up" ∧
    (handle modelParse exampleHeap exampleRequest
      [.response 201 exampleUpstreamHeaders, .error "socket hang up"]).res.sentStatus
      = some 500 ∧
    getHeader "content-type" (handle modelParse exampleHeap exampleRequest
      [.response 201 exampleUpstreamHeaders, .error "socket hang up"]).res.sentHeaders
      = some (.single "application/json") ∧
    (handle modelParse exampleHeap exampleRequest
      [.response 201 exampleUpstreamHeaders, .error "socket hang up"]).res.body
      = "Proxy Error: socket hang up" := by
  refine ⟨?_, ?_, ?_, ?_, ?_, ?_, ?_⟩ <;> decide

/-- C7, amended: for every sequence of upstream events on a forwarded request that starts
with the failure of the outbound request (so before any upstream answer), the caller's
response is finalized with status 500, exactly the four CORS headers and the error text as
body (no body when the method is `HEAD`), and no later event changes it: it holds no
upstream status, header or body byte. -/
theorem early_failure_is_final (parse : UrlParse) (heap : Heap) (req : IncomingMessage)
    (p : Option String) (m : String) (later : List UpstreamEvent)
    (hm : req.method ≠ "OPTIONS") (hp : parse req.url = .ok p) :
    (handle parse heap req (.error m :: later)).res.finished = true ∧
    (handle parse heap req (.error m :: later)).res.sentStatus = some 500 ∧
    (handle parse heap req (.error m :: later)).res.sentHeaders =
      [("Access-Control-Allow-Origin", .single "*"),
       ("Access-Control-Allow-Methods", .single "GET, POST, PUT, DELETE, OPTIONS"),
       ("Access-Control-Allow-Headers", .single "Content-Type, Authorization, x-api-version"),
       ("Access-Control-Max-Age", .single "86400")] ∧
    (handle parse heap req (.error m :: later)).res.body =
      (if req.method = "HEAD" then "" else "Proxy Error: " ++ m) := by
  have h1 := step_error_first parse heap req p m hm hp
  have h2 := run_finished (step (requestListener parse (Conn.accept heap req)) (.error m))
    later (by rw [h1]; rfl)
  rw [h1] at h2
  exact h2

/-- Witness for C7: a failure followed by a stray upstream answer. -/
theorem early_failure_is_final_witness :
    exampleRequest.method ≠ "OPTIONS" ∧
    modelParse exampleRequest.url = .ok (some "/api/v1/jobs?limit=5") ∧
    (handle modelParse exampleHeap exampleRequest
      (.error "read ECONNRESET" ::
        [.response 200 exampleUpstreamHeaders, .data "late", .finish])).res.sentStatus
      = some 500 ∧
    (handle modelParse exampleHeap exampleRequest
      (.error "read ECONNRESET" ::
        [.response 200 exampleUpstreamHeaders, .data "late", .finish])).res.body
      = (if exampleRequest.method = "HEAD" then "" else "Proxy Error: " ++ "read ECONNRESET") ∧
    (handle modelParse exampleHeap exampleRequest
      (.error "read ECONNRESET" ::
        [.response 200 exampleUpstreamHeaders, .data "late", .finish])).res.body
      = "Proxy Error: read ECONNRESET" :=
  ⟨by decide, rfl,
   (early_failure_is_final modelParse exampleHeap exampleRequest
     (some "/api/v1/jobs?limit=5") "read ECONNRESET"
     [.response 200 exampleUpstreamHeaders, .data "late", .finish] (by decide) rfl).2.1,
   (early_failure_is_final modelParse exampleHeap exampleRequest
     (some "/api/v1/jobs?limit=5") "read ECONNRESET"
     [.response 200 exampleUpstreamHeaders, .data "late", .finish] (by decide) rfl).2.2.2,
   by decide⟩

/-- C8 as stated fails: an `OPTIONS` request creates no outbound request. -/
theorem exactly_one_outbound_fails :
    ¬ ∀ (parse : UrlParse) (heap : Heap) (req : IncomingMessage)
        (events : List UpstreamEvent),
        (handle parse heap req events).outbound.length = 1 := by
  intro h
  have h1 := h modelParse exampleHeap examplePreflight []
  rw [handle_options modelParse exampleHeap examplePreflight [] rfl] at h1
  exact absurd h1 (by decide)

/-- C8, amended: handling an inbound request creates at most one outbound request: none
when the method is `OPTIONS`, and exactly one for any other method once `url.parse` has
returned; upstream events create no further one. -/
theorem at_most_one_outbound (parse : UrlParse) (heap : Heap) (req : IncomingMessage)
    (events : List UpstreamEvent) :
    (handle parse heap req events).outbound.length ≤ 1 ∧
    (req.method = "OPTIONS" → (handle parse heap req events).outbound.length = 0) ∧
    (∀ p, req.method ≠ "OPTIONS" → parse req.url = .ok p →
      (handle parse heap req events).outbound.length = 1) := by
  unfold handle
  rw [(run_frame _ events).1]
  by_cases hm : req.method = "OPTIONS"
  · rw [requestListener_options parse heap req hm]
    exact ⟨Nat.zero_le 1, fun _ => rfl, fun _ h => absurd hm h⟩
  · cases hp : parse req.url with
    | error e =>
      rw [requestListener_threw parse heap req e hm hp]
      exact ⟨Nat.zero_le 1, fun _ => rfl, fun p _ h => by cases h⟩
    | ok p =>
      rw [requestListener_forward parse heap req p hm hp]
      exact ⟨Nat.le_refl 1, fun h => absurd h hm, fun _ _ _ => rfl⟩

/-- C9: for a forwarded request (method other than `OPTIONS`, `url.parse` returned) the
single outbound request has the method of the inbound request, goes to host
`192.168.111.7` and port 9419 whatever the inbound headers and content are, and has
`rejectUnauthorized` false. -/
theorem outbound_goes_to_fixed_upstream (parse : UrlParse) (heap : Heap)
    (req : IncomingMessage) (events : List UpstreamEvent) (p : Option String)
    (hm : req.method ≠ "OPTIONS") (hp : parse req.url = .ok p) :
    ∃ o, (handle parse heap req events).outbound = [o] ∧ o.method = req.method ∧
      o.hostname = "192.168.111.7" ∧ o.port = 9419 ∧ o.rejectUnauthorized = false :=
  ⟨forwardedRequest heap req p, handle_outbound parse heap req events p hm hp,
    rfl, rfl, rfl, rfl⟩

/-- Witness for C9: the sample request, whose `host` header names the proxy. -/
theorem outbound_goes_to_fixed_upstream_witness :
    exampleRequest.method ≠ "OPTIONS" ∧
    modelParse exampleRequest.url = .ok (some "/api/v1/jobs?limit=5") ∧
    ∃ o, (handle modelParse exampleHeap exampleRequest []).outbound = [o] ∧
      o.method = exampleRequest.method ∧ o.hostname = "192.168.111.7" ∧ o.port = 9419 ∧
      o.rejectUnauthorized = false :=
  ⟨by decide, rfl,
   outbound_goes_to_fixed_upstream modelParse exampleHeap exampleRequest []
     (some "/api/v1/jobs?limit=5") (by decide) rfl⟩

/-- C10: handling leaves the inbound request as it was: the header object behind
`req.headers` (a valid reference) holds the same entries afterwards, `host` and `origin`
included, because the deletions act on a copy; method, URL and the reference itself are
unchanged. -/
theorem inbound_request_untouched (parse : UrlParse) (heap : Heap) (req : IncomingMessage)
    (events : List UpstreamEvent) (href : req.headers < heap.objs.length) :
    (handle parse heap req events).heap.read req.headers = heap.read req.headers ∧
    (handle parse heap req events).req = req := by
  unfold handle
  rw [(run_frame _ events).2.1, (run_frame _ events).2.2]
  by_cases hm : req.method = "OPTIONS"
  · rw [requestListener_options parse heap req hm]
    exact ⟨rfl, rfl⟩
  · cases hp : parse req.url with
    | error e =>
      rw [requestListener_threw parse heap req e hm hp]
      exact ⟨rfl, rfl⟩
    | ok p =>
      rw [requestListener_forward parse heap req p hm hp]
      exact ⟨forwardHeap_read_old heap req _ href, rfl⟩

/-- Witness for C10: after the sample request has been forwarded its header object still
has `host` and `origin`, while the outbound copy lacks them. -/
theorem inbound_request_untouched_witness :
    exampleRequest.headers < exampleHeap.objs.length ∧
    getKey "host" ((handle modelParse exampleHeap exampleRequest []).heap.read
      exampleRequest.headers) = some (.single "localhost:3000") ∧
    getKey "origin" ((handle modelParse exampleHeap exampleRequest []).heap.read
      exampleRequest.headers) = some (.single "http://localhost:8080") ∧
    (handle modelParse exampleHeap exampleRequest []).heap.read exampleRequest.headers
      = exampleHeap.read exampleRequest.headers ∧
    (handle modelParse exampleHeap exampleRequest []).req = exampleRequest :=
  ⟨by decide, by decide, by decide,
   inbound_request_untouched modelParse exampleHeap exampleRequest [] (by decide)⟩

end VeeamProxy
